import Mathlib

/-!
Shallow embedding of the Decision-Maker matching-and-scoring pipeline
(`src/engine/matching.py`, `src/engine/embeddings.py`,
`src/engine/decision_engine.py`, `src/analyzer/historical_analyzer.py`,
plus the domain records they read).

Modelling conventions:
* Python floats are IEEE 754 doubles, hence rational numbers; every score is
  modelled as `ℚ`.  The one non-rational kernel, `math.sqrt` inside
  `_cosine_similarity`, is abstracted: the semantic strategy is parameterised
  by the similarity function `sim : List ℚ → List ℚ → ℚ`, and theorems about
  it quantify over `sim`, so they cover the concrete float computation.
* Python `None`/exceptions are `Option`/`Except`; a modelled function being a
  total Lean function is the "never raises" part of a claim.
* Python `dict` (insertion-ordered, overwrite keeps position) is modelled as
  an association list with in-place update.
* `list.sort(key=..., reverse=True)` (stable) is `List.mergeSort` with the
  "greater or equal score" Boolean relation.
* `round(x, 2)` and `f"{x:.2f}"` round half-to-even on the underlying double;
  the model rounds half up.  No value appearing in the claims sits on a
  half-cent boundary, so the two agree on everything proved here.
-/

/-! ## String helpers (Python `str` operations used by the pipeline) -/

/-- Python `str.lower()` (the corpus and inputs are ASCII; `Char.toLower`
is the ASCII lowering). -/
def pyLower (s : String) : String := String.mk (s.toList.map Char.toLower)

/-- Helper: does `hay` start with `needle`? -/
def charsStart : List Char → List Char → Bool
  | _, [] => true
  | [], _ :: _ => false
  | a :: as, b :: bs => a == b && charsStart as bs

/-- Helper: does `needle` occur as a contiguous sublist of `hay`? -/
def charsHaveSub : List Char → List Char → Bool
  | [], n => n.isEmpty
  | hay@(_ :: t), n => charsStart hay n || charsHaveSub t n

/-- Python `needle in hay` on strings (substring test; the empty needle is
always contained, as in Python). -/
def pyContains (hay needle : String) : Bool := charsHaveSub hay.toList needle.toList

/-- Helper for `pySplitWs`: walk the characters with the current
(reversed) word as accumulator. -/
def splitWsAux : List Char → List Char → List String
  | [], acc => if acc = [] then [] else [String.mk acc.reverse]
  | c :: cs, acc =>
      if c.isWhitespace then
        (if acc = [] then [] else [String.mk acc.reverse]) ++ splitWsAux cs []
      else splitWsAux cs (c :: acc)

/-- Python `str.split()` with no argument: split on whitespace runs, dropping
empty pieces. -/
def pySplitWs (s : String) : List String := splitWsAux s.toList []

/-- Python `round(x, 2)`: round to two decimal places (see header note on the
half-way tie-break). -/
def round2 (q : ℚ) : ℚ := (round (q * 100) : ℤ) / 100

/-- Python `f"{x:.2f}"` formatting of a score. -/
def fmt2 (q : ℚ) : String :=
  let c : ℤ := round (q * 100)
  let sign := if c < 0 then "-" else ""
  let n := c.natAbs
  let frac := n % 100
  sign ++ toString (n / 100) ++ "." ++ (if frac < 10 then "0" else "") ++ toString frac

/-- Python `", ".join(xs)`. -/
def joinComma (xs : List String) : String := String.intercalate ", " xs

/-! ## Domain records (`src/domain/*.py`)

Fields that no modelled code path ever reads (timestamps, categories,
SOP steps/modes/purpose, trigger types and conditions, reflection notes)
are omitted; every field the pipeline reads is present. -/

/-- Sub-point within a principle (`principles.py`, class `SubPrinciple`). -/
structure SubPrinciple where
  id : String
  text : String
  deriving DecidableEq

/-- Corpus guidance rule (`principles.py`, class `Principle`). -/
structure Principle where
  id : ℤ
  title : String
  sub_principles : List SubPrinciple
  related_sop_ids : List ℤ
  related_value_ids : List String
  tags : List String
  deriving DecidableEq

/-- Stakes level enum (`situations.py`, class `Stakes`). -/
inductive Stakes
  | low | medium | high | critical
  deriving DecidableEq

/-- Life domain enum (`situations.py`, class `Domain`). -/
inductive LifeDomain
  | personal | professional | family | financial | health | social
  deriving DecidableEq

/-- Structured context (`situations.py`, class `SituationContext`). -/
structure SituationContext where
  facts : List String
  emotions : List String
  stakeholders : List String
  constraints : List String
  deriving DecidableEq

/-- Source `SituationContext.get_summary`. -/
def SituationContext.get_summary (c : SituationContext) : String :=
  let parts :=
    (if c.facts ≠ [] then ["Facts: " ++ joinComma c.facts] else []) ++
    (if c.emotions ≠ [] then ["Emotions: " ++ joinComma c.emotions] else []) ++
    (if c.stakeholders ≠ [] then ["Stakeholders: " ++ joinComma c.stakeholders] else []) ++
    (if c.constraints ≠ [] then ["Constraints: " ++ joinComma c.constraints] else [])
  String.intercalate " | " parts

/-- Input scenario (`situations.py`, class `Situation`). -/
structure Situation where
  id : String
  description : String
  context : SituationContext
  stakes : Stakes
  lifeDomain : LifeDomain
  tags : List String
  deriving DecidableEq

/-- Source `Situation.get_full_description`. -/
def Situation.get_full_description (s : Situation) : String :=
  let cs := s.context.get_summary
  if cs ≠ "" then s.description ++ "\n" ++ "Context: " ++ cs else s.description

/-- Trigger conditions of an SOP; only the keyword list is ever read by the
modelled code (`sops.py`, class `SOPTrigger`). -/
structure SOPTrigger where
  keywords : List String
  deriving DecidableEq

/-- Source `SOPTrigger.matches_situation`:
case-insensitive keyword substring matching. -/
def SOPTrigger.matches_situation (t : SOPTrigger) (situation_text : String) : Bool :=
  let situation_lower := pyLower situation_text
  t.keywords.any (fun kw => pyContains situation_lower (pyLower kw))

/-- Recurring procedure (`sops.py`, class `SOP`). -/
structure SOP where
  id : ℤ
  name : String
  triggers : List SOPTrigger
  deriving DecidableEq

/-- Source `SOP.check_triggers`. -/
def SOP.check_triggers (s : SOP) (situation_text : String) : Bool :=
  s.triggers.any (fun t => t.matches_situation situation_text)

/-- Historical extension of `Situation` (`situations.py`,
class `HistoricalSituation`). -/
structure HistoricalSituation where
  base : Situation
  actual_decision : String
  actual_outcome : String
  deriving DecidableEq

/-! ## Engine result records (`src/engine/models.py`) -/

/-- A matched principle with relevance score (`models.py`,
class `PrincipleMatch`). -/
structure PrincipleMatch where
  principle : Principle
  relevance_score : ℚ
  match_reason : String
  deriving DecidableEq

/-- Value-alignment result (`models.py`, class `AlignmentScore`); the
`value_scores` dict is an insertion-ordered association list. -/
structure AlignmentScore where
  overall_score : ℚ
  value_scores : List (String × ℚ)
  deriving DecidableEq

/-- Metadata about the matching process (`models.py`,
class `MatchingMetadata`). -/
structure MatchingMetadata where
  strategies_attempted : List String
  strategies_succeeded : List String
  llm_provider_used : Option String
  fallback_triggered : Bool
  deriving DecidableEq

/-- Result of evaluating a situation (`models.py`, class `DecisionResult`). -/
structure DecisionResult where
  situation : Situation
  applicable_principles : List PrincipleMatch
  triggered_sops : List SOP
  recommendation : String
  value_alignment : AlignmentScore
  confidence : ℚ
  reasoning : String
  matching_metadata : MatchingMetadata
  deriving DecidableEq

/-- The knowledge-base collaborator, reduced to the two immutable corpus
lists the engine reads (`knowledge_base.py`, class `KnowledgeBase`). -/
structure KnowledgeBase where
  principles : List Principle
  sops : List SOP
  deriving DecidableEq

/-- Source `KnowledgeBase.get_sops_for_situation`. -/
def KnowledgeBase.get_sops_for_situation (kb : KnowledgeBase) (situation_text : String) : List SOP :=
  kb.sops.filter (fun s => s.check_triggers situation_text)

/-! ## Stable descending sort

Python `list.sort(key=lambda x: x.relevance_score, reverse=True)` is a stable
descending sort; `List.mergeSort` with this relation is its model. -/

/-- Boolean "comes no later than" relation for descending score order. -/
def descBy (a b : PrincipleMatch) : Bool := decide (b.relevance_score ≤ a.relevance_score)

/-- Stable sort of matches by descending relevance score. -/
def sortMatches (l : List PrincipleMatch) : List PrincipleMatch := l.mergeSort descBy

/-! ## Keyword matching (`matching.py`, class `KeywordMatchingStrategy`) -/

/-- Rudimentary stop-word list from `KeywordMatchingStrategy.match`. -/
def stop_words : List String := ["the", "and", "or", "a", "an", "to", "of", "in", "for", "with"]

/-- Tags of `p` whose lowering occurs in the (already lowered) situation
text; source lines 63-66 of `matching.py`. -/
def matchedTags (situation_text : String) (p : Principle) : List String :=
  p.tags.filter (fun tag => pyContains situation_text (pyLower tag))

/-- Stop-word-filtered lowered title words longer than 3 characters; source
lines 76-80 of `matching.py`. -/
def titleWords (p : Principle) : List String :=
  (pySplitWs p.title).filterMap (fun w =>
    if pyLower w ∉ stop_words ∧ 3 < w.length then some (pyLower w) else none)

/-- Title words of `p` occurring in the situation text; source lines 82-84. -/
def matchedKeywords (situation_text : String) (p : Principle) : List String :=
  (titleWords p).filter (fun w => pyContains situation_text w)

/-- Score accumulated for one principle by `KeywordMatchingStrategy.match`
(source lines 59-94): the tag-overlap contribution plus the title-keyword
contribution (halved when a tag matched). -/
def keywordScoreAccum (situation_text : String) (p : Principle) : ℚ :=
  let mt := matchedTags situation_text p
  let afterTags : ℚ := if mt ≠ [] then min (0.6 + (mt.length : ℚ) * 0.1) 0.9 else 0
  let mk := matchedKeywords situation_text p
  if mk ≠ [] then
    let keyword_score : ℚ := min ((mk.length : ℚ) * 0.15) 0.5
    if mt ≠ [] then afterTags + keyword_score * 0.5 else afterTags + keyword_score
  else afterTags

/-- Match-reason string built by `KeywordMatchingStrategy.match`. -/
def keywordMatchReason (situation_text : String) (p : Principle) : String :=
  let mt := matchedTags situation_text p
  let mk := matchedKeywords situation_text p
  String.intercalate "; "
    ((if mt ≠ [] then ["Tags: " ++ joinComma mt] else []) ++
     (if mk ≠ [] then ["Keywords: " ++ joinComma mk] else []))

/-- One iteration of the principle loop in `KeywordMatchingStrategy.match`:
a match is emitted iff the accumulated score is positive, clamped to 1.0. -/
def keywordMatchOne (situation_text : String) (p : Principle) : Option PrincipleMatch :=
  let score_accum := keywordScoreAccum situation_text p
  if 0 < score_accum then
    some ⟨p, min score_accum 1.0, keywordMatchReason situation_text p⟩
  else none

/-- Source `KeywordMatchingStrategy.match` (`matching.py` lines 48-107):
score every principle, drop zero scores, stable-sort descending.  The
source's `situation_words` set (line 56) is never read and is omitted. -/
def keyword_match (situation : Situation) (principles : List Principle) : List PrincipleMatch :=
  let situation_text := pyLower situation.get_full_description
  sortMatches (principles.filterMap (keywordMatchOne situation_text))

/-! ## Embedding service (`src/engine/embeddings.py`, class `EmbeddingService`)

The two HTTP backends are modelled as deterministic functions
`String → Option Vec`: `none` stands for any transport failure (exception,
missing response field), `some v` for a parsed `v`.  Python truthiness of the
parsed vector (`if embedding:`) is modelled explicitly, so `some []` also
advances the chain.  The configured-credential guards (`self.api_key`,
`ds_key`) are Booleans.  The exact-text cache and the number of transport
invocations of each backend are explicit state. -/

/-- Embedding vectors: lists of floats, i.e. of rationals. -/
abbrev Vec := List ℚ

/-- Configuration and transport behaviour of the two embedding backends. -/
structure EmbeddingProviders where
  geminiKey : Bool
  gemini : String → Option Vec
  deepseekKey : Bool
  deepseek : String → Option Vec

/-- Mutable state of an `EmbeddingService`: the exact-text cache plus
counters of transport invocations (the counters are ghost state used to
express the cache-hit claim). -/
structure EmbedState where
  cache : List (String × Vec)
  geminiCalls : ℕ
  deepseekCalls : ℕ
  deriving DecidableEq

/-- Lookup in the exact-text cache (`text in self._cache`). -/
def cacheLookup (c : List (String × Vec)) (text : String) : Option Vec :=
  (c.find? (fun e => e.1 == text)).map (fun e => e.2)

/-- Python dict write `self._cache[text] = embedding`: overwrite in place,
else append. -/
def cacheInsert : List (String × Vec) → String → Vec → List (String × Vec)
  | [], text, v => [(text, v)]
  | e :: rest, text, v =>
      if e.1 = text then (text, v) :: rest else e :: cacheInsert rest text v

/-- Source `EmbeddingService._embed_with_deepseek`: skip without a transport
call when no key is configured; otherwise one transport call, caching and
returning the vector only when it parsed non-empty. -/
def embed_with_deepseek (P : EmbeddingProviders) (text : String) (st : EmbedState) :
    Option Vec × EmbedState :=
  if P.deepseekKey then
    let st1 : EmbedState := ⟨st.cache, st.geminiCalls, st.deepseekCalls + 1⟩
    match P.deepseek text with
    | some e =>
        if e ≠ [] then (some e, ⟨cacheInsert st1.cache text e, st1.geminiCalls, st1.deepseekCalls⟩)
        else (none, st1)
    | none => (none, st1)
  else (none, st)

/-- Source `EmbeddingService.embed_text`: cache first; then Gemini when a key
is configured (silently falling through to DeepSeek on failure or an empty
parsed vector); then the DeepSeek fallback; `none` when everything failed. -/
def embed_text (P : EmbeddingProviders) (text : String) (st : EmbedState) :
    Option Vec × EmbedState :=
  match cacheLookup st.cache text with
  | some v => (some v, st)
  | none =>
      if P.geminiKey then
        let st1 : EmbedState := ⟨st.cache, st.geminiCalls + 1, st.deepseekCalls⟩
        match P.gemini text with
        | some e =>
            if e ≠ [] then (some e, ⟨cacheInsert st1.cache text e, st1.geminiCalls, st1.deepseekCalls⟩)
            else embed_with_deepseek P text st1
        | none => embed_with_deepseek P text st1
      else embed_with_deepseek P text st

/-! ## Semantic matching (`matching.py`, class `SemanticMatchingStrategy`)

Within one call chain the *value* returned by `embed_text` for a text is a
pure function of the providers and the initial cache (the cache only memoises
the very vector the chain would recompute), so the strategy is modelled
against an abstract result function `embedR : String → Option Vec`; the
stateful `embed_text` above is related to it where the claims need it.
The cosine-similarity kernel is the abstract parameter `sim` (see header). -/

/-- Embedding input text for a principle
(`f"{p.title}. Keywords: {', '.join(p.tags)}"`). -/
def principleEmbedText (p : Principle) : String :=
  p.title ++ ". Keywords: " ++ joinComma p.tags

/-- Python dict write `self.principle_embeddings[p.id] = vec`. -/
def embedsInsert : List (ℤ × Vec) → ℤ → Vec → List (ℤ × Vec)
  | [], k, v => [(k, v)]
  | e :: rest, k, v =>
      if e.1 = k then (k, v) :: rest else e :: embedsInsert rest k v

/-- Lookup `self.principle_embeddings[p.id]`. -/
def embedsLookup (m : List (ℤ × Vec)) (k : ℤ) : Option Vec :=
  (m.find? (fun e => e.1 == k)).map (fun e => e.2)

/-- Source `SemanticMatchingStrategy._run_embedding_setup`: skip when the map
is already populated, else embed every principle, keeping the truthy
(non-`None`, non-empty) vectors. -/
def run_embedding_setup (embedR : String → Option Vec) (init : List (ℤ × Vec))
    (principles : List Principle) : List (ℤ × Vec) :=
  if init ≠ [] then init
  else
    principles.foldl (fun acc p =>
      match embedR (principleEmbedText p) with
      | some v => if v ≠ [] then embedsInsert acc p.id v else acc
      | none => acc) []

/-- Source `SemanticMatchingStrategy.match` (`matching.py` lines 131-163):
empty when no principle embedding or no situation vector is available;
otherwise the embedded principles with similarity strictly above 0.65,
stable-sorted descending by similarity. -/
def semantic_match (sim : Vec → Vec → ℚ) (embedR : String → Option Vec)
    (init : List (ℤ × Vec)) (situation : Situation) (principles : List Principle) :
    List PrincipleMatch :=
  let embeds := run_embedding_setup embedR init principles
  if embeds = [] then []
  else
    match embedR situation.description with
    | none => []
    | some sit_vec =>
        if sit_vec = [] then []
        else
          sortMatches (principles.filterMap (fun p =>
            match embedsLookup embeds p.id with
            | none => none
            | some p_vec =>
                let score := sim sit_vec p_vec
                if 0.65 < score then
                  some ⟨p, score, "Semantic similarity: " ++ fmt2 score⟩
                else none))

/-! ## Match aggregation (`decision_engine.py`, `evaluate` lines 56-75)

The `combined_map` dict is built from the semantic matches (unconditional
key overwrite) and then from the keyword matches (overwrite only on a
strictly higher score); dict writes keep the position of an existing key. -/

/-- Python `combined_map[m.principle.id] = m` on a dict keyed by principle id. -/
def matchDictOverwrite : List PrincipleMatch → PrincipleMatch → List PrincipleMatch
  | [], m => [m]
  | x :: xs, m =>
      if x.principle.id = m.principle.id then m :: xs
      else x :: matchDictOverwrite xs m

/-- One keyword-match step of the merge loop: replace only on a strictly
higher score, insert when the id is absent. -/
def matchDictMax : List PrincipleMatch → PrincipleMatch → List PrincipleMatch
  | [], m => [m]
  | x :: xs, m =>
      if x.principle.id = m.principle.id then
        (if x.relevance_score < m.relevance_score then m else x) :: xs
      else x :: matchDictMax xs m

/-- The merged (still unsorted) `combined_map` values, in dict insertion
order. -/
def mergeMatches (sem kw : List PrincipleMatch) : List PrincipleMatch :=
  kw.foldl matchDictMax (sem.foldl matchDictOverwrite [])

/-- Aggregation step of `DecisionEngine.evaluate`: merge keyed by principle
id, stable-sort descending by score, take the top 3. -/
def aggregate (sem kw : List PrincipleMatch) : List PrincipleMatch :=
  (sortMatches (mergeMatches sem kw)).take 3

/-! ## Engine scoring and text synthesis (`decision_engine.py`) -/

/-- Python dict update `value_scores[val_id] = value_scores.get(val_id, 0.0) + weight`. -/
def assocAdd : List (String × ℚ) → String → ℚ → List (String × ℚ)
  | [], k, w => [(k, w)]
  | e :: rest, k, w =>
      if e.1 = k then (e.1, e.2 + w) :: rest else e :: assocAdd rest k w

/-- Source `DecisionEngine._calculate_alignment` (lines 146-175): each match
adds its relevance score to every related value id, the running total counts
one contribution per (match, value id) pair, and the overall score is
`min(total / 3.0, 1.0)` (0.0 without matched principles or contributions). -/
def calculate_alignment (ms : List PrincipleMatch) : AlignmentScore :=
  if ms = [] then ⟨0.0, []⟩
  else
    let acc := ms.foldl (fun (acc : List (String × ℚ) × ℚ) m =>
      m.principle.related_value_ids.foldl
        (fun a vid => (assocAdd a.1 vid m.relevance_score, a.2 + m.relevance_score)) acc)
      ([], 0.0)
    ⟨if 0 < acc.2 then min (acc.2 / 3.0) 1.0 else 0.0, acc.1⟩

/-- Boolean descending order on the (value id, weight) pairs of
`alignment.value_scores.items()`. -/
def descByVal (a b : String × ℚ) : Bool := decide (b.2 ≤ a.2)

/-- Source `DecisionEngine._generate_reasoning` (lines 177-238), returning
`(reasoning, recommendation)`.  The `situation` parameter of the source is
never read and is omitted. -/
def generate_reasoning (ms : List PrincipleMatch) (sops : List SOP)
    (alignment : AlignmentScore) : String × String :=
  let reasoning_matches :=
    match ms with
    | [] => ["No specific principles matched the situation keywords strongly."]
    | top :: _ =>
        ["The primary principle identified is \x27" ++ top.principle.title ++
          "\x27 (Relevance: " ++ fmt2 top.relevance_score ++ ")."]
  let rec_matches :=
    if ms ≠ [] then
      ((ms.take 3).enum.map (fun ip =>
        let p := ip.2.principle
        [toString (ip.1 + 1) ++ ". **Apply Principle " ++ toString p.id ++ ":** " ++ p.title] ++
        (match p.sub_principles with
         | [] => []
         | s :: _ => ["   - Guidance: " ++ s.text]))).flatten
    else ["Review the situation description and add more specific keywords or context."]
  let sop_names := joinComma (sops.map SOP.name)
  let reasoning_sops :=
    if sops ≠ [] then
      ["The situation triggers the following Standard Operating Procedures: " ++ sop_names ++ "."]
    else []
  let rec_sops :=
    if sops ≠ [] then ["**IMMEDIATE ACTION:** Execute SOP(s): " ++ sop_names ++ "."] else []
  let reasoning_values :=
    if alignment.value_scores ≠ [] then
      let top_values := (alignment.value_scores.mergeSort descByVal).take 2
      ["This course of action strongly aligns with your values of " ++
        joinComma (top_values.map Prod.fst) ++ "."]
    else []
  (String.intercalate " " (reasoning_matches ++ reasoning_sops ++ reasoning_values),
   String.intercalate "\n" (rec_matches ++ rec_sops))

/-- Source `DecisionEngine._calculate_confidence` (lines 240-266). -/
def calculate_confidence (ms : List PrincipleMatch) (sops : List SOP) : ℚ :=
  if ms = [] ∧ sops = [] then 0.1
  else
    let base : ℚ := match ms with | [] => 0.0 | m :: _ => m.relevance_score
    let base : ℚ :=
      if sops ≠ [] then max base 0.8
      else if 1 < ms.length then min (base + 0.1) 1.0 else base
    round2 base

/-- Source `DecisionEngine.evaluate` (lines 39-119), parameterised by the
similarity kernel, the embedding result function and the initial
principle-embedding map (empty for a freshly constructed engine). -/
def evaluate (sim : Vec → Vec → ℚ) (embedR : String → Option Vec)
    (embeds0 : List (ℤ × Vec)) (kb : KnowledgeBase) (situation : Situation) :
    DecisionResult :=
  let ms := semantic_match sim embedR embeds0 situation kb.principles
  let keyword_matches := keyword_match situation kb.principles
  let applicable := aggregate ms keyword_matches
  let strategies_attempted := ["semantic", "keyword"]
  let metadata : MatchingMetadata :=
    ⟨strategies_attempted, strategies_attempted, some "gemini", false⟩
  let triggered_sops := kb.get_sops_for_situation situation.get_full_description
  let alignment := calculate_alignment applicable
  let rr := generate_reasoning applicable triggered_sops alignment
  let confidence := calculate_confidence applicable triggered_sops
  ⟨situation, applicable, triggered_sops, rr.2, alignment, confidence, rr.1, metadata⟩

/-- Modelled from the spec: the "lexical-only degraded path" of
`DecisionEngine.evaluate` — the same pipeline built from the lexical signal
alone, i.e. with an empty semantic match list. -/
def lexical_only_evaluate (kb : KnowledgeBase) (situation : Situation) : DecisionResult :=
  let keyword_matches := keyword_match situation kb.principles
  let applicable := aggregate [] keyword_matches
  let strategies_attempted := ["semantic", "keyword"]
  let metadata : MatchingMetadata :=
    ⟨strategies_attempted, strategies_attempted, some "gemini", false⟩
  let triggered_sops := kb.get_sops_for_situation situation.get_full_description
  let alignment := calculate_alignment applicable
  let rr := generate_reasoning applicable triggered_sops alignment
  let confidence := calculate_confidence applicable triggered_sops
  ⟨situation, applicable, triggered_sops, rr.2, alignment, confidence, rr.1, metadata⟩

/-! ## The unassigned `matcher` attribute (`decision_engine.py` lines 121-132) -/

/-- Attribute names assigned on `DecisionEngine` instances: `__init__`
(lines 25-37) assigns exactly these four, and no other method assigns any.
In particular `matcher` is never assigned. -/
def decisionEngineAttrs : List String :=
  ["kb", "keyword_strategy", "embedding_service", "semantic_strategy"]

/-- Source `DecisionEngine.get_applicable_principles`: the body reads
`self.matcher`; reading an attribute that was never assigned raises
`AttributeError` before any matching runs.  The value of the (dead)
success branch is the call the body would make. -/
def get_applicable_principles (situation : Situation) (principles : List Principle) :
    Except String (List PrincipleMatch) :=
  if "matcher" ∈ decisionEngineAttrs then
    Except.ok (keyword_match situation principles)
  else Except.error "AttributeError: matcher"

/-! ## Historical analyzer (`src/analyzer/historical_analyzer.py`)

The two reasoning providers (`_analyze_with_gemini`, `_analyze_with_deepseek`)
are HTTP-plus-JSON-parsing chains whose outcome is either a parsed
(gaps, lessons) pair or a raised exception; each outcome is modelled as an
`Option (List Gap × List Lesson)` argument of `analyze`, with `none` for any
failure (missing credential, transport error, malformed response). -/

/-- A gap between actual and recommended decision (`historical_analyzer.py`,
class `Gap`).  The severity bound 1-10 is enforced by the pydantic
constructor, not by `_calculate_adherence_score`, which is modelled here over
arbitrary integer severities exactly as the arithmetic in the source. -/
structure Gap where
  gap_type : String
  description : String
  severity : ℤ
  deriving DecidableEq

/-- A lesson learned (`historical_analyzer.py`, class `Lesson`). -/
structure Lesson where
  principle_id : Option ℤ
  insight : String
  actionable : String
  deriving DecidableEq

/-- Complete analysis of a historical situation (`historical_analyzer.py`,
class `AnalysisReport`). -/
structure AnalysisReport where
  situation : HistoricalSituation
  actual_decision : String
  actual_outcome : String
  recommended_decision : DecisionResult
  gaps : List Gap
  lessons : List Lesson
  principle_adherence_score : ℚ
  deriving DecidableEq

/-- Source `HistoricalAnalyzer._calculate_adherence_score` (lines 131-140). -/
def calculate_adherence_score (gaps : List Gap) : ℚ :=
  if gaps = [] then 1.0
  else
    let total_severity : ℚ := ((gaps.map (fun g => (g.severity : ℚ))).sum)
    round2 (max 0.0 (1.0 - total_severity * 0.05))

/-- Negative-sentiment keyword list of `_analyze_heuristically` (line 305). -/
def negative_outcomes : List String :=
  ["regret", "fail", "bad", "loss", "error", "poor", "worse"]

/-- Condition under which `_analyze_heuristically` flags a matched principle:
its lowered title is absent from the lowered actual-decision text and more
than half of its tags are also absent (lines 289-292). -/
def heuristicFlagged (actual_text : String) (p : Principle) : Bool :=
  !(pyContains actual_text (pyLower p.title)) &&
    decide ((p.tags.length : ℚ) / 2 <
      ((p.tags.filter (fun t => !(pyContains actual_text (pyLower t)))).length : ℚ))

/-- Severity-7 gap emitted for a flagged principle (lines 293-297). -/
def missedGap (p : Principle) : Gap :=
  ⟨"missed_principle", "Decision missed applying principle: " ++ p.title, 7⟩

/-- Lesson paired with a `missed_principle` gap (lines 298-302). -/
def missedLesson (p : Principle) : Lesson :=
  ⟨some p.id,
   "Need to better incorporate \x27" ++ p.title ++ "\x27 in similar situations.",
   "Review principle " ++ toString p.id ++ " checklist before deciding."⟩

/-- Generic severity-5 gap of the negative-outcome check (lines 308-312). -/
def blindspotGap : Gap :=
  ⟨"bad_outcome_blindspot",
   "Outcome was poor but specific principle violation not detected by keywords.", 5⟩

/-- Lesson paired with the `bad_outcome_blindspot` gap (lines 313-316). -/
def blindspotLesson : Lesson :=
  ⟨none, "Outcome suggests a gap in execution or undefined principle.",
   "Reflect on this decision to identify new principles."⟩

/-- Negative-sentiment test on the lowered actual-outcome text (line 306). -/
def negOutcome (historical : HistoricalSituation) : Bool :=
  negative_outcomes.any (fun w => pyContains (pyLower historical.actual_outcome) w)

/-- Source `HistoricalAnalyzer._analyze_heuristically` (lines 275-322):
a severity-7 `missed_principle` gap with a paired lesson for every flagged
matched principle, then — only when no gap was found and the lowered
actual-outcome text contains a negative-sentiment keyword — one generic
severity-5 `bad_outcome_blindspot` gap with a paired lesson. -/
def analyze_heuristically (historical : HistoricalSituation)
    (recommended : DecisionResult) : List Gap × List Lesson :=
  let actual_text := pyLower historical.actual_decision
  let step1 := recommended.applicable_principles.foldl
    (fun (acc : List Gap × List Lesson) m =>
      if heuristicFlagged actual_text m.principle then
        (acc.1 ++ [missedGap m.principle], acc.2 ++ [missedLesson m.principle])
      else acc) ([], [])
  if negOutcome historical then
    if step1.1 = [] then
      (step1.1 ++ [blindspotGap], step1.2 ++ [blindspotLesson])
    else step1
  else step1

/-- Source `HistoricalAnalyzer.analyze` (lines 89-123): recommendation via
`DecisionEngine.evaluate`, then the Gemini outcome, else the DeepSeek
outcome, else the local heuristic; adherence score from the resulting
gaps. -/
def analyze (geminiAnalysis deepseekAnalysis : Option (List Gap × List Lesson))
    (sim : Vec → Vec → ℚ) (embedR : String → Option Vec) (embeds0 : List (ℤ × Vec))
    (kb : KnowledgeBase) (historical : HistoricalSituation) : AnalysisReport :=
  let recommended := evaluate sim embedR embeds0 kb historical.base
  let gl :=
    match geminiAnalysis with
    | some r => r
    | none =>
        match deepseekAnalysis with
        | some r => r
        | none => analyze_heuristically historical recommended
  ⟨historical, historical.actual_decision, historical.actual_outcome, recommended,
    gl.1, gl.2, calculate_adherence_score gl.1⟩

/-! ## Helper lemmas: the stable descending sort -/

theorem descBy_trans : ∀ (a b c : PrincipleMatch),
    descBy a b = true → descBy b c = true → descBy a c = true := by
  intro a b c h1 h2
  simp only [descBy, decide_eq_true_eq] at *
  exact le_trans h2 h1

theorem descBy_total : ∀ (a b : PrincipleMatch), (descBy a b || descBy b a) = true := by
  intro a b
  simp only [descBy, Bool.or_eq_true, decide_eq_true_eq]
  exact le_total b.relevance_score a.relevance_score

theorem sortMatches_perm (l : List PrincipleMatch) : (sortMatches l).Perm l :=
  List.mergeSort_perm l descBy

theorem sortMatches_pairwise (l : List PrincipleMatch) :
    (sortMatches l).Pairwise (fun a b => b.relevance_score ≤ a.relevance_score) := by
  have h := List.sorted_mergeSort descBy_trans descBy_total l
  simpa only [descBy, decide_eq_true_eq] using h

theorem sortMatches_sublist {c l : List PrincipleMatch}
    (hp : c.Pairwise (fun a b => b.relevance_score ≤ a.relevance_score))
    (hs : c.Sublist l) : c.Sublist (sortMatches l) := by
  apply List.sublist_mergeSort descBy_trans descBy_total _ hs
  simpa only [descBy, decide_eq_true_eq] using hp

/-! ## Helper lemmas: dict lookups for the aggregation merge -/

/-- Lookup by principle id in a match list (first entry wins, which is the
only entry in a dict-shaped list). -/
def idLookup (l : List PrincipleMatch) (i : ℤ) : Option PrincipleMatch :=
  l.find? (fun x => x.principle.id == i)

theorem idLookup_cons (x : PrincipleMatch) (xs : List PrincipleMatch) (i : ℤ) :
    idLookup (x :: xs) i = if x.principle.id = i then some x else idLookup xs i := by
  by_cases h : x.principle.id = i <;> simp [idLookup, List.find?_cons, h]

theorem idLookup_eq_none_iff (l : List PrincipleMatch) (i : ℤ) :
    idLookup l i = none ↔ ∀ m ∈ l, m.principle.id ≠ i := by
  simp [idLookup, List.find?_eq_none]

theorem idLookup_of_mem_nodup {l : List PrincipleMatch} {m : PrincipleMatch} {i : ℤ}
    (hm : m ∈ l) (hi : m.principle.id = i)
    (hn : (l.map (fun x => x.principle.id)).Nodup) : idLookup l i = some m := by
  induction l with
  | nil => cases hm
  | cons x xs ih =>
      rw [idLookup_cons]
      rw [List.map_cons, List.nodup_cons] at hn
      rcases List.mem_cons.mp hm with hm | hm
      · subst hm; simp [hi]
      · have hx : x.principle.id ≠ i := by
          intro hxi
          apply hn.1
          rw [hxi, ← hi]
          exact List.mem_map_of_mem _ hm
        rw [if_neg hx]
        exact ih hm hn.2

theorem overwrite_of_absent {l : List PrincipleMatch} {m : PrincipleMatch}
    (h : idLookup l m.principle.id = none) : matchDictOverwrite l m = l ++ [m] := by
  induction l with
  | nil => rfl
  | cons x xs ih =>
      rw [idLookup_cons] at h
      by_cases hx : x.principle.id = m.principle.id
      · simp [hx] at h
      · rw [if_neg hx] at h
        simp [matchDictOverwrite, hx, ih h]

theorem idLookup_max_self (l : List PrincipleMatch) (m : PrincipleMatch) :
    idLookup (matchDictMax l m) m.principle.id =
      some (match idLookup l m.principle.id with
            | some e => if e.relevance_score < m.relevance_score then m else e
            | none => m) := by
  induction l with
  | nil => simp [matchDictMax, idLookup_cons, idLookup]
  | cons x xs ih =>
      by_cases hx : x.principle.id = m.principle.id
      · by_cases hr : x.relevance_score < m.relevance_score <;>
          simp [matchDictMax, hx, hr, idLookup_cons]
      · simp [matchDictMax, hx, idLookup_cons, ih]

theorem idLookup_max_other (l : List PrincipleMatch) (m : PrincipleMatch) (i : ℤ)
    (h : i ≠ m.principle.id) :
    idLookup (matchDictMax l m) i = idLookup l i := by
  have hm : m.principle.id ≠ i := Ne.symm h
  induction l with
  | nil => simp [matchDictMax, idLookup_cons, idLookup, hm]
  | cons x xs ih =>
      by_cases hx : x.principle.id = m.principle.id
      · have hxi : x.principle.id ≠ i := by rw [hx]; exact hm
        by_cases hr : x.relevance_score < m.relevance_score <;>
          simp [matchDictMax, hx, hr, idLookup_cons, hm, hxi]
      · simp [matchDictMax, hx, idLookup_cons, ih]

theorem foldl_overwrite_fresh (sem : List PrincipleMatch) :
    ∀ acc, (∀ m ∈ sem, idLookup acc m.principle.id = none) →
      (sem.map (fun m => m.principle.id)).Nodup →
      sem.foldl matchDictOverwrite acc = acc ++ sem := by
  induction sem with
  | nil => intro acc _ _; simp
  | cons b rest ih =>
      intro acc hfresh hn
      rw [List.map_cons, List.nodup_cons] at hn
      have hb : idLookup acc b.principle.id = none := hfresh b (by simp)
      have hstep : matchDictOverwrite acc b = acc ++ [b] := overwrite_of_absent hb
      rw [List.foldl_cons, hstep, ih (acc ++ [b]) ?_ hn.2]
      · simp
      · intro m hm
        rw [idLookup_eq_none_iff]
        intro x hx hxi
        rcases List.mem_append.mp hx with hx | hx
        · have := (idLookup_eq_none_iff acc m.principle.id).mp (hfresh m (by simp [hm]))
          exact this x hx hxi
        · simp at hx
          subst hx
          apply hn.1
          rw [hxi]
          exact List.mem_map_of_mem _ hm

theorem mergeMatches_sem_eq (sem kw : List PrincipleMatch)
    (hs : (sem.map (fun m => m.principle.id)).Nodup) :
    mergeMatches sem kw = kw.foldl matchDictMax sem := by
  unfold mergeMatches
  rw [foldl_overwrite_fresh sem [] (by intro m _; rfl) hs]
  rfl

theorem idLookup_foldl_max (kw : List PrincipleMatch) :
    ∀ (d : List PrincipleMatch) (i : ℤ), (kw.map (fun m => m.principle.id)).Nodup →
      idLookup (kw.foldl matchDictMax d) i =
        match idLookup kw i with
        | some b => some (match idLookup d i with
                          | some a => if a.relevance_score < b.relevance_score then b else a
                          | none => b)
        | none => idLookup d i := by
  induction kw with
  | nil => intro d i _; rfl
  | cons b rest ih =>
      intro d i hn
      rw [List.map_cons, List.nodup_cons] at hn
      rw [List.foldl_cons, ih (matchDictMax d b) i hn.2, idLookup_cons]
      by_cases hi : b.principle.id = i
      · have hrest : idLookup rest i = none := by
          rw [idLookup_eq_none_iff]
          intro x hx hxi
          apply hn.1
          rw [hi, ← hxi]
          exact List.mem_map_of_mem _ hx
        rw [hrest, if_pos hi, ← hi, idLookup_max_self d b]
      · rw [if_neg hi, idLookup_max_other d b i (by intro hh; exact hi hh.symm)]

theorem if_lt_eq_max (a b : ℚ) : (if a < b then b else a) = max a b := by
  rcases lt_or_ge a b with h | h
  · rw [if_pos h, max_eq_right h.le]
  · rw [if_neg (not_lt.mpr h), max_eq_left h]

/-- Claim C2: the aggregation step merges the lexical and semantic match
lists keyed by principle id — when both lists score the same principle id
the merged entry's score is the maximum of the two, otherwise the single
present match is kept — then stable-sorts the combined matches descending by
relevance score and truncates to at most 3 entries, so the aggregated list
has length at most 3 and is descending for any input. -/
theorem C2_aggregation_merge_max_sort_truncate (sem kw : List PrincipleMatch)
    (hs : (sem.map (fun m => m.principle.id)).Nodup)
    (hk : (kw.map (fun m => m.principle.id)).Nodup) :
    aggregate sem kw = (sortMatches (mergeMatches sem kw)).take 3 ∧
    (aggregate sem kw).length ≤ 3 ∧
    (aggregate sem kw).Pairwise (fun a b => b.relevance_score ≤ a.relevance_score) ∧
    (∀ i : ℤ, ∀ ms ∈ sem, ∀ mk ∈ kw, ms.principle.id = i → mk.principle.id = i →
        ∃ mm, idLookup (mergeMatches sem kw) i = some mm ∧
          mm.relevance_score = max ms.relevance_score mk.relevance_score) ∧
    (∀ i : ℤ, ∀ ms ∈ sem, ms.principle.id = i → (∀ mk ∈ kw, mk.principle.id ≠ i) →
        idLookup (mergeMatches sem kw) i = some ms) ∧
    (∀ i : ℤ, ∀ mk ∈ kw, mk.principle.id = i → (∀ ms ∈ sem, ms.principle.id ≠ i) →
        idLookup (mergeMatches sem kw) i = some mk) := by
  refine ⟨rfl, ?_, ?_, ?_, ?_, ?_⟩
  · show ((sortMatches (mergeMatches sem kw)).take 3).length ≤ 3
    rw [List.length_take]
    exact min_le_left _ _
  · exact List.Pairwise.sublist (List.take_sublist _ _) (sortMatches_pairwise _)
  · intro i ms hms mk hmk hmsi hmki
    rw [mergeMatches_sem_eq sem kw hs, idLookup_foldl_max kw sem i hk,
      idLookup_of_mem_nodup hmk hmki hk, idLookup_of_mem_nodup hms hmsi hs]
    refine ⟨_, rfl, ?_⟩
    show (if ms.relevance_score < mk.relevance_score then mk else ms).relevance_score =
      max ms.relevance_score mk.relevance_score
    rcases lt_or_ge ms.relevance_score mk.relevance_score with h | h
    · rw [if_pos h, max_eq_right h.le]
    · rw [if_neg (not_lt.mpr h), max_eq_left h]
  · intro i ms hms hmsi hknone
    rw [mergeMatches_sem_eq sem kw hs, idLookup_foldl_max kw sem i hk,
      (idLookup_eq_none_iff kw i).mpr hknone, idLookup_of_mem_nodup hms hmsi hs]
  · intro i mk hmk hmki hsnone
    rw [mergeMatches_sem_eq sem kw hs, idLookup_foldl_max kw sem i hk,
      idLookup_of_mem_nodup hmk hmki hk, (idLookup_eq_none_iff sem i).mpr hsnone]

/-- Input data for the aggregation witness: a semantic match list. -/
def semC2 : List PrincipleMatch :=
  [⟨⟨1, "A", [], [], [], []⟩, 0.9, "sem"⟩, ⟨⟨3, "C", [], [], [], []⟩, 0.66, "sem"⟩]

/-- Input data for the aggregation witness: a keyword match list. -/
def kwC2 : List PrincipleMatch :=
  [⟨⟨1, "A", [], [], [], []⟩, 0.7, "kw"⟩, ⟨⟨2, "B", [], [], [], []⟩, 0.5, "kw"⟩]

theorem C2_aggregation_merge_max_sort_truncate_witness :
    ((semC2.map (fun m => m.principle.id)).Nodup ∧
     (kwC2.map (fun m => m.principle.id)).Nodup) ∧
    (aggregate semC2 kwC2 = (sortMatches (mergeMatches semC2 kwC2)).take 3 ∧
     (aggregate semC2 kwC2).length ≤ 3 ∧
     (aggregate semC2 kwC2).Pairwise (fun a b => b.relevance_score ≤ a.relevance_score) ∧
     (∀ i : ℤ, ∀ ms ∈ semC2, ∀ mk ∈ kwC2, ms.principle.id = i → mk.principle.id = i →
         ∃ mm, idLookup (mergeMatches semC2 kwC2) i = some mm ∧
           mm.relevance_score = max ms.relevance_score mk.relevance_score) ∧
     (∀ i : ℤ, ∀ ms ∈ semC2, ms.principle.id = i → (∀ mk ∈ kwC2, mk.principle.id ≠ i) →
         idLookup (mergeMatches semC2 kwC2) i = some ms) ∧
     (∀ i : ℤ, ∀ mk ∈ kwC2, mk.principle.id = i → (∀ ms ∈ semC2, ms.principle.id ≠ i) →
         idLookup (mergeMatches semC2 kwC2) i = some mk)) :=
  ⟨⟨by decide, by decide⟩,
   C2_aggregation_merge_max_sort_truncate semC2 kwC2 (by decide) (by decide)⟩

/-- Modelled from the spec (claim C3 wording): 0.1 when both lists are
empty; otherwise start from the top match score (0.0 with no matches),
raise to at least 0.8 when any SOP triggered, else add a flat 0.1 capped at
1.0 when there is more than one match, and round to 2 decimal places. -/
def confidenceSpec (ms : List PrincipleMatch) (sops : List SOP) : ℚ :=
  if ms = [] ∧ sops = [] then 0.1
  else
    let base : ℚ := match ms.head? with | some m => m.relevance_score | none => 0.0
    let adjusted : ℚ :=
      if sops ≠ [] then max base 0.8
      else if 1 < ms.length then min (base + 0.1) 1.0 else base
    round2 adjusted

/-- Claim C3: for every match list and triggered-SOP list, the confidence
score equals 0.1 when both lists are empty, and otherwise the top match's
relevance score (0.0 without matches), raised to at least 0.8 when any SOP
triggered, else increased by a flat 0.1 capped at 1.0 when there is more
than one match, rounded to 2 decimal places. -/
theorem C3_confidence_formula (ms : List PrincipleMatch) (sops : List SOP) :
    calculate_confidence ms sops = confidenceSpec ms sops := by
  cases ms <;> rfl

/-- Claim C7: the adherence score is 1.0 on an empty gap list, and otherwise
`max(0, 1 - 0.05 * Σ severities)` rounded to 2 decimals; a single
severity-10 gap scores 0.50 and severities 12 and 10 together floor the
score at 0.00. -/
theorem C7_adherence_score_formula (gaps : List Gap) :
    calculate_adherence_score [] = 1.0 ∧
    calculate_adherence_score [⟨"g", "d", 10⟩] = 0.5 ∧
    calculate_adherence_score [⟨"g1", "d1", 12⟩, ⟨"g2", "d2", 10⟩] = 0.0 ∧
    (gaps ≠ [] → calculate_adherence_score gaps =
      round2 (max 0.0 (1.0 - ((gaps.map (fun g => (g.severity : ℚ))).sum) * 0.05))) := by
  refine ⟨rfl, ?_, ?_, ?_⟩
  · show round2 (max 0.0 (1.0 - ((10:ℚ) + 0) * 0.05)) = 0.5
    rw [show (1.0 - ((10:ℚ) + 0) * 0.05) = 0.5 by norm_num,
      max_eq_right (by norm_num : (0.0:ℚ) ≤ 0.5), round2, round_eq]
    norm_num
  · show round2 (max 0.0 (1.0 - ((12:ℚ) + (10 + 0)) * 0.05)) = 0.0
    rw [show (1.0 - ((12:ℚ) + (10 + 0)) * 0.05) = -0.1 by norm_num,
      max_eq_left (by norm_num : (-0.1:ℚ) ≤ 0.0), round2, round_eq]
    norm_num
  · intro h
    simp [calculate_adherence_score, h]

theorem C7_adherence_score_formula_witness :
    ([(⟨"g", "d", 10⟩ : Gap)] ≠ []) ∧
    calculate_adherence_score [⟨"g", "d", 10⟩] =
      round2 (max 0.0 (1.0 - ((([(⟨"g", "d", 10⟩ : Gap)]).map
        (fun g => (g.severity : ℚ))).sum) * 0.05)) :=
  ⟨by decide, (C7_adherence_score_formula [⟨"g", "d", 10⟩]).2.2.2 (by decide)⟩

/-- Claim C10: for every Situation, the public method
`DecisionEngine.get_applicable_principles` raises `AttributeError` and never
returns a match list, because it reads `self.matcher`, which `__init__`
never assigns. -/
theorem C10_get_applicable_principles_attribute_error
    (situation : Situation) (principles : List Principle) :
    get_applicable_principles situation principles =
      Except.error "AttributeError: matcher" := by
  rfl

/-! ## Failure of the embedding chain -/

/-- Result function of an embedding service whose providers are all
unreachable: no text ever embeds. -/
def nullEmbed : String → Option Vec := fun _ => none

theorem setup_fail (embedR : String → Option Vec) :
    ∀ ps : List Principle,
      (∀ p ∈ ps, embedR (principleEmbedText p) = none ∨
        embedR (principleEmbedText p) = some []) →
      run_embedding_setup embedR [] ps = [] := by
  have key : ∀ ps : List Principle,
      (∀ p ∈ ps, embedR (principleEmbedText p) = none ∨
        embedR (principleEmbedText p) = some []) →
      ps.foldl (fun acc p =>
        match embedR (principleEmbedText p) with
        | some v => if v ≠ [] then embedsInsert acc p.id v else acc
        | none => acc) [] = [] := by
    intro ps
    induction ps with
    | nil => intro _; rfl
    | cons p rest ih =>
        intro h
        have hstep : (match embedR (principleEmbedText p) with
            | some v => if v ≠ [] then embedsInsert [] p.id v else ([] : List (ℤ × Vec))
            | none => []) = [] := by
          rcases h p (by simp) with hp | hp <;> (rw [hp]; try simp)
        rw [List.foldl_cons, hstep]
        exact ih (fun q hq => h q (by simp [hq]))
  intro ps h
  unfold run_embedding_setup
  rw [if_neg (fun hh => hh rfl)]
  exact key ps h

/-- Claim C1: for every syntactically valid Situation,
`DecisionEngine.evaluate` returns a DecisionResult and never raises — in
this embedding, `evaluate` is a total function on all inputs — and when
every embedding provider is unreachable (the embedding service yields no
vector for any text) the semantic matcher contributes an empty match list
and the result is built from the lexical signal alone. -/
theorem C1_evaluate_total_lexical_only_on_provider_failure
    (sim : Vec → Vec → ℚ) (embedR : String → Option Vec)
    (kb : KnowledgeBase) (situation : Situation)
    (hfail : ∀ t, embedR t = none) :
    semantic_match sim embedR [] situation kb.principles = [] ∧
    evaluate sim embedR [] kb situation = lexical_only_evaluate kb situation := by
  have hsetup : run_embedding_setup embedR [] kb.principles = [] :=
    setup_fail embedR kb.principles (fun p _ => Or.inl (hfail _))
  have hsem : semantic_match sim embedR [] situation kb.principles = [] := by
    unfold semantic_match
    rw [hsetup, if_pos rfl]
  refine ⟨hsem, ?_⟩
  unfold evaluate lexical_only_evaluate
  rw [hsem]

/-- Corpus for the degraded-path witness. -/
def kbC1 : KnowledgeBase :=
  ⟨[⟨1, "Deadline Discipline", [⟨"a", "Plan the last day first."⟩], [], ["v1"], ["deadline"]⟩],
   [⟨9, "Crisis Mode", [⟨["deadline"]⟩]⟩]⟩

/-- Situation for the degraded-path witness. -/
def sitC1 : Situation :=
  ⟨"s1", "A deadline is looming", ⟨[], [], [], []⟩, Stakes.high, LifeDomain.professional, []⟩

theorem C1_evaluate_total_lexical_only_on_provider_failure_witness :
    (∀ t, nullEmbed t = none) ∧
    (semantic_match (fun _ _ => 0) nullEmbed [] sitC1 kbC1.principles = [] ∧
     evaluate (fun _ _ => 0) nullEmbed [] kbC1 sitC1 = lexical_only_evaluate kbC1 sitC1) :=
  ⟨fun _ => rfl,
   C1_evaluate_total_lexical_only_on_provider_failure (fun _ _ => 0) nullEmbed kbC1 sitC1
     (fun _ => rfl)⟩

/-- Corpus for the metadata divergence record. -/
def kbC9 : KnowledgeBase :=
  ⟨[⟨1, "Deadline Discipline", [], [], [], ["deadline"]⟩], []⟩

/-- Situation for the metadata divergence record. -/
def sitC9 : Situation :=
  ⟨"s9", "A deadline is looming", ⟨[], [], [], []⟩, Stakes.high, LifeDomain.professional, []⟩

/-- Claim C9 (divergence record): at an evaluation where every embedding
provider is unreachable, the semantic strategy contributes no match — it did
not succeed and the keyword-only fallback is in effect — yet the returned
MatchingMetadata still reports both strategies as succeeded, a Gemini
semantic provider, and no fallback.  The metadata does not record which
strategies actually succeeded. -/
theorem C9_metadata_always_reports_success :
    semantic_match (fun _ _ => 0) nullEmbed [] sitC9 kbC9.principles = [] ∧
    (evaluate (fun _ _ => 0) nullEmbed [] kbC9 sitC9).matching_metadata.strategies_succeeded
      = ["semantic", "keyword"] ∧
    (evaluate (fun _ _ => 0) nullEmbed [] kbC9 sitC9).matching_metadata.fallback_triggered
      = false ∧
    (evaluate (fun _ _ => 0) nullEmbed [] kbC9 sitC9).matching_metadata.llm_provider_used
      = some "gemini" := by
  refine ⟨?_, rfl, rfl, rfl⟩
  have hsetup : run_embedding_setup nullEmbed [] kbC9.principles = [] :=
    setup_fail nullEmbed kbC9.principles (fun p _ => Or.inl rfl)
  unfold semantic_match
  rw [hsetup, if_pos rfl]

/-! ## Lexical scoring, spec side (claim C4 wording) -/

/-- Modelled from the spec: tag-overlap score
`min(0.6 + 0.1 * matched_tag_count, 0.9)` when at least one tag appears as a
substring of the lower-cased full description, else 0. -/
def tagScoreSpec (text : String) (p : Principle) : ℚ :=
  if matchedTags text p ≠ [] then
    min (0.6 + 0.1 * ((matchedTags text p).length : ℚ)) 0.9
  else 0

/-- Modelled from the spec: title-keyword score
`min(0.15 * matched_count, 0.5)` over stop-word-filtered title words longer
than 3 characters, halved when a tag already matched. -/
def titleScoreSpec (text : String) (p : Principle) : ℚ :=
  let base : ℚ := min (0.15 * ((matchedKeywords text p).length : ℚ)) 0.5
  if matchedTags text p ≠ [] then base / 2 else base

theorem keywordScoreAccum_eq_spec (text : String) (p : Principle) :
    keywordScoreAccum text p = tagScoreSpec text p + titleScoreSpec text p := by
  simp only [keywordScoreAccum, tagScoreSpec, titleScoreSpec]
  rw [mul_comm (0.1 : ℚ) (((matchedTags text p).length : ℚ)),
    mul_comm (0.15 : ℚ) (((matchedKeywords text p).length : ℚ))]
  split_ifs with h1 h2
  · ring
  · ring
  · rw [not_ne_iff.mp h1]
    simp only [List.length_nil, Nat.cast_zero, zero_mul]
    rw [show ((0 : ℚ) ⊓ 0.5) = 0 from min_eq_left (by norm_num)]
    ring
  · rw [not_ne_iff.mp h1]
    simp only [List.length_nil, Nat.cast_zero, zero_mul]
    rw [show ((0 : ℚ) ⊓ 0.5) = 0 from min_eq_left (by norm_num)]
    ring

/-- Claim C4: the lexical matcher scores each principle as the clamped-to-1.0
sum of the spec-worded tag score and title-keyword score (halved when a tag
matched), omits principles with zero accumulated score, sorts descending by
score with ties kept in corpus order (stable sort), and a situation matching
exactly one tag of a principle gets a tag score of exactly 0.70. -/
theorem C4_keyword_match_scoring (situation : Situation) (ps : List Principle) :
    (keyword_match situation ps).Perm
      (ps.filterMap (keywordMatchOne (pyLower situation.get_full_description))) ∧
    (∀ m ∈ keyword_match situation ps,
        m.principle ∈ ps ∧
        0 < m.relevance_score ∧
        m.relevance_score = min
          (tagScoreSpec (pyLower situation.get_full_description) m.principle +
           titleScoreSpec (pyLower situation.get_full_description) m.principle) 1.0) ∧
    (∀ p ∈ ps,
        0 < tagScoreSpec (pyLower situation.get_full_description) p +
            titleScoreSpec (pyLower situation.get_full_description) p →
        ∃ m ∈ keyword_match situation ps, m.principle = p) ∧
    (keyword_match situation ps).Pairwise
      (fun a b => b.relevance_score ≤ a.relevance_score) ∧
    (∀ a b : PrincipleMatch, a.relevance_score = b.relevance_score →
        [a, b].Sublist
          (ps.filterMap (keywordMatchOne (pyLower situation.get_full_description))) →
        [a, b].Sublist (keyword_match situation ps)) ∧
    (∀ p : Principle,
        (matchedTags (pyLower situation.get_full_description) p).length = 1 →
        tagScoreSpec (pyLower situation.get_full_description) p = 0.7) := by
  refine ⟨sortMatches_perm _, ?_, ?_, sortMatches_pairwise _, ?_, ?_⟩
  · intro m hm
    have hmem : m ∈ ps.filterMap
        (keywordMatchOne (pyLower situation.get_full_description)) :=
      (sortMatches_perm _).mem_iff.mp hm
    rcases List.mem_filterMap.mp hmem with ⟨p, hp, hf⟩
    unfold keywordMatchOne at hf
    by_cases hpos : 0 < keywordScoreAccum (pyLower situation.get_full_description) p
    · rw [if_pos hpos] at hf
      cases hf
      refine ⟨hp, lt_min hpos (by norm_num), ?_⟩
      rw [keywordScoreAccum_eq_spec]
    · rw [if_neg hpos] at hf
      cases hf
  · intro p hp hpos
    have hpos2 : 0 < keywordScoreAccum (pyLower situation.get_full_description) p := by
      rw [keywordScoreAccum_eq_spec]
      exact hpos
    refine ⟨⟨p, min (keywordScoreAccum (pyLower situation.get_full_description) p) 1.0,
      keywordMatchReason (pyLower situation.get_full_description) p⟩, ?_, rfl⟩
    apply (sortMatches_perm _).mem_iff.mpr
    apply List.mem_filterMap.mpr
    refine ⟨p, hp, ?_⟩
    unfold keywordMatchOne
    rw [if_pos hpos2]
  · intro a b heq hsub
    have hpw : ([a, b]).Pairwise (fun x y => y.relevance_score ≤ x.relevance_score) := by
      simp [List.pairwise_cons, heq]
    exact sortMatches_sublist hpw hsub
  · intro p hlen
    have hne : matchedTags (pyLower situation.get_full_description) p ≠ [] := by
      intro hh
      rw [hh] at hlen
      simp at hlen
    unfold tagScoreSpec
    rw [if_pos hne, hlen]
    rw [show (0.6 : ℚ) + 0.1 * ((1 : ℕ) : ℚ) = 0.7 by norm_num,
      min_eq_left (by norm_num : (0.7 : ℚ) ≤ 0.9)]

/-- Situation for the lexical-scoring witness (text contains "deadline"). -/
def sitC4 : Situation :=
  ⟨"s4", "deadline", ⟨[], [], [], []⟩, Stakes.low, LifeDomain.personal, []⟩

/-- Principle for the lexical-scoring witness (tags = ["deadline"]). -/
def pC4 : Principle := ⟨1, "X", [], [], [], ["deadline"]⟩

theorem C4_keyword_match_scoring_witness :
    (matchedTags (pyLower sitC4.get_full_description) pC4).length = 1 ∧
    tagScoreSpec (pyLower sitC4.get_full_description) pC4 = 0.7 :=
  ⟨by decide, (C4_keyword_match_scoring sitC4 [pC4]).2.2.2.2.2 pC4 (by decide)⟩

/-- Claim C5: `SemanticMatcher.match` returns an empty list without raising
when the corpus-embedding step fails (no principle text embeds) or the
situation-embedding step fails; otherwise it returns exactly the embedded
principles whose similarity with the situation vector strictly exceeds the
fixed threshold 0.65, each with relevance_score equal to that similarity,
sorted descending.  The similarity kernel `sim` is universally quantified,
covering the concrete float cosine computation of `_cosine_similarity`. -/
theorem C5_semantic_match_failure_and_threshold (sim : Vec → Vec → ℚ)
    (embedR : String → Option Vec) (situation : Situation) (ps : List Principle) :
    ((∀ p ∈ ps, embedR (principleEmbedText p) = none ∨
        embedR (principleEmbedText p) = some []) →
      semantic_match sim embedR [] situation ps = []) ∧
    (embedR situation.description = none →
      semantic_match sim embedR [] situation ps = []) ∧
    (∀ sv : Vec, embedR situation.description = some sv → sv ≠ [] →
      semantic_match sim embedR [] situation ps =
        sortMatches (ps.filterMap (fun p =>
          match embedsLookup (run_embedding_setup embedR [] ps) p.id with
          | none => none
          | some pv =>
              if 0.65 < sim sv pv then
                some ⟨p, sim sv pv, "Semantic similarity: " ++ fmt2 (sim sv pv)⟩
              else none)) ∧
      (semantic_match sim embedR [] situation ps).Pairwise
        (fun a b => b.relevance_score ≤ a.relevance_score) ∧
      (∀ m ∈ semantic_match sim embedR [] situation ps,
        0.65 < m.relevance_score ∧ m.principle ∈ ps ∧
        ∃ pv, embedsLookup (run_embedding_setup embedR [] ps) m.principle.id = some pv ∧
          m.relevance_score = sim sv pv) ∧
      (∀ p ∈ ps, ∀ pv,
        embedsLookup (run_embedding_setup embedR [] ps) p.id = some pv →
        0.65 < sim sv pv →
        ∃ m ∈ semantic_match sim embedR [] situation ps,
          m.principle = p ∧ m.relevance_score = sim sv pv)) := by
  refine ⟨?_, ?_, ?_⟩
  · intro hfail
    unfold semantic_match
    rw [setup_fail embedR ps hfail, if_pos rfl]
  · intro hnone
    unfold semantic_match
    by_cases hemb : run_embedding_setup embedR [] ps = []
    · rw [hemb, if_pos rfl]
    · rw [if_neg hemb, hnone]
  · intro sv hsv hsvne
    have heq : semantic_match sim embedR [] situation ps =
        sortMatches (ps.filterMap (fun p =>
          match embedsLookup (run_embedding_setup embedR [] ps) p.id with
          | none => none
          | some pv =>
              if 0.65 < sim sv pv then
                some ⟨p, sim sv pv, "Semantic similarity: " ++ fmt2 (sim sv pv)⟩
              else none)) := by
      unfold semantic_match
      by_cases hemb : run_embedding_setup embedR [] ps = []
      · rw [hemb, if_pos rfl]
        have : ps.filterMap (fun p =>
            match embedsLookup ([] : List (ℤ × Vec)) p.id with
            | none => none
            | some pv =>
                if 0.65 < sim sv pv then
                  some (⟨p, sim sv pv, "Semantic similarity: " ++ fmt2 (sim sv pv)⟩ :
                    PrincipleMatch)
                else none) = [] := by
          rw [List.filterMap_eq_nil_iff]
          intro p _
          rfl
        rw [this]
        rw [show sortMatches [] = [] from List.mergeSort_nil]
      · rw [if_neg hemb, hsv]
        show (if sv = [] then ([] : List PrincipleMatch) else _) = _
        rw [if_neg hsvne]
    refine ⟨heq, ?_, ?_, ?_⟩
    · rw [heq]
      exact sortMatches_pairwise _
    · intro m hm
      rw [heq] at hm
      have hmem := (sortMatches_perm _).mem_iff.mp hm
      rcases List.mem_filterMap.mp hmem with ⟨p, hp, hf⟩
      cases hlk : embedsLookup (run_embedding_setup embedR [] ps) p.id with
      | none => rw [hlk] at hf; cases hf
      | some pv =>
          rw [hlk] at hf
          have hf2 : (if 0.65 < sim sv pv then
              some (⟨p, sim sv pv, "Semantic similarity: " ++ fmt2 (sim sv pv)⟩ :
                PrincipleMatch)
            else none) = some m := hf
          by_cases hth : 0.65 < sim sv pv
          · rw [if_pos hth] at hf2
            cases hf2
            exact ⟨hth, hp, pv, hlk, rfl⟩
          · rw [if_neg hth] at hf2
            cases hf2
    · intro p hp pv hlk hth
      refine ⟨⟨p, sim sv pv, "Semantic similarity: " ++ fmt2 (sim sv pv)⟩, ?_, rfl, rfl⟩
      rw [heq]
      apply (sortMatches_perm _).mem_iff.mpr
      apply List.mem_filterMap.mpr
      refine ⟨p, hp, ?_⟩
      rw [hlk]
      show (if 0.65 < sim sv pv then
          some (⟨p, sim sv pv, "Semantic similarity: " ++ fmt2 (sim sv pv)⟩ :
            PrincipleMatch)
        else none) = _
      rw [if_pos hth]

/-- Principle for the semantic-threshold witness. -/
def pC5 : Principle := ⟨1, "Focus", [], [], [], ["focus"]⟩

/-- Situation for the semantic-threshold witness. -/
def sitC5 : Situation :=
  ⟨"s5", "scattered attention", ⟨[], [], [], []⟩, Stakes.low, LifeDomain.personal, []⟩

theorem C5_semantic_match_failure_and_threshold_witness :
    ((fun _ => some ([1] : Vec)) sitC5.description = some [1] ∧ ([1] : Vec) ≠ [] ∧
     pC5 ∈ [pC5] ∧
     embedsLookup (run_embedding_setup (fun _ => some ([1] : Vec)) [] [pC5]) pC5.id
       = some [1] ∧
     (0.65 : ℚ) < (fun (_ _ : Vec) => (0.7 : ℚ)) [1] [1]) ∧
    (∃ m ∈ semantic_match (fun _ _ => (0.7 : ℚ)) (fun _ => some ([1] : Vec)) [] sitC5 [pC5],
      m.principle = pC5 ∧ m.relevance_score = (fun (_ _ : Vec) => (0.7 : ℚ)) [1] [1]) :=
  ⟨⟨rfl, by decide, by decide, by decide, by norm_num⟩,
   (((C5_semantic_match_failure_and_threshold (fun _ _ => (0.7 : ℚ))
      (fun _ => some ([1] : Vec)) sitC5 [pC5]).2.2 [1] rfl (by decide)).2.2.2)
      pC5 (by decide) [1] (by decide) (by norm_num)⟩

/-! ## Helper lemma: the exact-text cache -/

theorem cacheLookup_insert_self (c : List (String × Vec)) (text : String) (v : Vec) :
    cacheLookup (cacheInsert c text v) text = some v := by
  induction c with
  | nil => simp [cacheInsert, cacheLookup]
  | cons e rest ih =>
      by_cases h : e.1 = text
      · simp [cacheInsert, h, cacheLookup]
      · simp only [cacheInsert, if_neg h, cacheLookup, List.find?_cons] at ih ⊢
        rw [show (e.1 == text) = false by simp [h]]
        exact ih

/-- Claim C6: `embed_text` never raises (it is a total function here); the
exact-text cache is consulted first; on a cache miss the primary backend is
tried and any failure silently advances to the secondary backend; when both
fail the call returns `none`; and after a successful first call a repeated
call with the identical text is a cache hit, so the provider transport is
invoked exactly once across both calls (the counters are unchanged by the
second call). -/
theorem C6_embed_text_cache_fallback_failure (P : EmbeddingProviders) (text : String)
    (st : EmbedState) :
    (∀ v, cacheLookup st.cache text = some v → embed_text P text st = (some v, st)) ∧
    (∀ v, cacheLookup st.cache text = none → P.geminiKey = true →
      P.gemini text = none → P.deepseekKey = true → P.deepseek text = some v → v ≠ [] →
      embed_text P text st =
        (some v, ⟨cacheInsert st.cache text v, st.geminiCalls + 1, st.deepseekCalls + 1⟩)) ∧
    (cacheLookup st.cache text = none →
      (P.geminiKey = false ∨ P.gemini text = none ∨ P.gemini text = some []) →
      (P.deepseekKey = false ∨ P.deepseek text = none ∨ P.deepseek text = some []) →
      (embed_text P text st).1 = none) ∧
    (∀ v, cacheLookup st.cache text = none → P.geminiKey = true →
      P.gemini text = some v → v ≠ [] →
      embed_text P text st =
        (some v, ⟨cacheInsert st.cache text v, st.geminiCalls + 1, st.deepseekCalls⟩) ∧
      embed_text P text ⟨cacheInsert st.cache text v, st.geminiCalls + 1, st.deepseekCalls⟩ =
        (some v, ⟨cacheInsert st.cache text v, st.geminiCalls + 1, st.deepseekCalls⟩)) := by
  have hds_fail : (P.deepseekKey = false ∨ P.deepseek text = none ∨
      P.deepseek text = some []) →
      ∀ st1 : EmbedState, (embed_with_deepseek P text st1).1 = none := by
    intro hdfail st1
    rcases hdfail with hdk | hd | hd
    · simp [embed_with_deepseek, hdk]
    · cases hdk : P.deepseekKey
      · simp [embed_with_deepseek, hdk]
      · simp [embed_with_deepseek, hdk, hd]
    · cases hdk : P.deepseekKey
      · simp [embed_with_deepseek, hdk]
      · simp [embed_with_deepseek, hdk, hd]
  have hds_ok : ∀ v, P.deepseekKey = true → P.deepseek text = some v → v ≠ [] →
      ∀ st1 : EmbedState, embed_with_deepseek P text st1 =
        (some v, ⟨cacheInsert st1.cache text v, st1.geminiCalls, st1.deepseekCalls + 1⟩) := by
    intro v hdk hd hvne st1
    simp [embed_with_deepseek, hdk, hd, hvne]
  refine ⟨?_, ?_, ?_, ?_⟩
  · intro v hv
    unfold embed_text
    rw [hv]
  · intro v hmiss hgk hg hdk hd hvne
    simp [embed_text, hmiss, hgk, hg, hds_ok v hdk hd hvne]
  · intro hmiss hgfail hdfail
    rcases hgfail with hgk | hg | hg
    · simp [embed_text, hmiss, hgk, hds_fail hdfail]
    · cases hgk : P.geminiKey
      · simp [embed_text, hmiss, hgk, hds_fail hdfail]
      · simp [embed_text, hmiss, hgk, hg, hds_fail hdfail]
    · cases hgk : P.geminiKey
      · simp [embed_text, hmiss, hgk, hds_fail hdfail]
      · simp [embed_text, hmiss, hgk, hg, hds_fail hdfail]
  · intro v hmiss hgk hg hvne
    have hfirst : embed_text P text st =
        (some v, ⟨cacheInsert st.cache text v, st.geminiCalls + 1, st.deepseekCalls⟩) := by
      simp [embed_text, hmiss, hgk, hg, hvne]
    refine ⟨hfirst, ?_⟩
    simp [embed_text, cacheLookup_insert_self]

/-- Providers for the cache witness: a working Gemini, no DeepSeek key. -/
def provC6 : EmbeddingProviders := ⟨true, fun _ => some [1], false, fun _ => none⟩

theorem C6_embed_text_cache_fallback_failure_witness :
    (cacheLookup ([] : List (String × Vec)) "txt" = none ∧
     provC6.geminiKey = true ∧ provC6.gemini "txt" = some [1] ∧ ([1] : Vec) ≠ []) ∧
    (embed_text provC6 "txt" ⟨[], 0, 0⟩ =
      (some [1], ⟨cacheInsert [] "txt" [1], 0 + 1, 0⟩) ∧
     embed_text provC6 "txt" ⟨cacheInsert [] "txt" [1], 0 + 1, 0⟩ =
      (some [1], ⟨cacheInsert [] "txt" [1], 0 + 1, 0⟩)) :=
  ⟨⟨rfl, rfl, rfl, by decide⟩,
   (C6_embed_text_cache_fallback_failure provC6 "txt" ⟨[], 0, 0⟩).2.2.2 [1]
     rfl rfl rfl (by decide)⟩

/-- Modelled from the spec (claim C8 wording): the matched principles the
heuristic flags — title absent from the actual-decision text and more than
half of the tags absent. -/
def missedPrinciplesSpec (historical : HistoricalSituation)
    (recommended : DecisionResult) : List Principle :=
  (recommended.applicable_principles.map (fun m => m.principle)).filter
    (fun p => heuristicFlagged (pyLower historical.actual_decision) p)

theorem heuristic_fold (text : String) (ms : List PrincipleMatch) :
    ∀ acc : List Gap × List Lesson,
    ms.foldl (fun (acc : List Gap × List Lesson) m =>
      if heuristicFlagged text m.principle then
        (acc.1 ++ [missedGap m.principle], acc.2 ++ [missedLesson m.principle])
      else acc) acc =
    (acc.1 ++ ((ms.map (fun m => m.principle)).filter
        (fun p => heuristicFlagged text p)).map missedGap,
     acc.2 ++ ((ms.map (fun m => m.principle)).filter
        (fun p => heuristicFlagged text p)).map missedLesson) := by
  induction ms with
  | nil => intro acc; simp
  | cons m rest ih =>
      intro acc
      rw [List.foldl_cons]
      by_cases h : heuristicFlagged text m.principle
      · rw [if_pos h, ih]
        simp [h]
      · rw [if_neg h, ih]
        simp [h]

/-- Claim C8: with both reasoning providers failed, `GapAnalyzer.analyze`
never raises (total function) and returns the report built from the local
heuristic, and the heuristic emits exactly one severity-7 `missed_principle`
gap with its paired lesson per flagged matched principle (title absent from
the actual-decision text and more than half of the tags absent), followed —
only when no gap was produced so far — by one generic severity-5
`bad_outcome_blindspot` gap with its paired lesson when the actual-outcome
text contains a negative-sentiment keyword. -/
theorem C8_gap_analyzer_heuristic_fallback (sim : Vec → Vec → ℚ)
    (embedR : String → Option Vec) (embeds0 : List (ℤ × Vec)) (kb : KnowledgeBase)
    (historical : HistoricalSituation) (recommended : DecisionResult) :
    (analyze none none sim embedR embeds0 kb historical =
      ⟨historical, historical.actual_decision, historical.actual_outcome,
        evaluate sim embedR embeds0 kb historical.base,
        (analyze_heuristically historical (evaluate sim embedR embeds0 kb historical.base)).1,
        (analyze_heuristically historical (evaluate sim embedR embeds0 kb historical.base)).2,
        calculate_adherence_score
          (analyze_heuristically historical
            (evaluate sim embedR embeds0 kb historical.base)).1⟩) ∧
    analyze_heuristically historical recommended =
      ((missedPrinciplesSpec historical recommended).map missedGap ++
        (if negOutcome historical = true ∧ missedPrinciplesSpec historical recommended = []
         then [blindspotGap] else []),
       (missedPrinciplesSpec historical recommended).map missedLesson ++
        (if negOutcome historical = true ∧ missedPrinciplesSpec historical recommended = []
         then [blindspotLesson] else [])) := by
  constructor
  · rfl
  · simp only [analyze_heuristically]
    rw [heuristic_fold]
    simp only [List.nil_append]
    by_cases hn : negOutcome historical
    · by_cases hm : missedPrinciplesSpec historical recommended = []
      · rw [if_pos hn]
        unfold missedPrinciplesSpec at hm
        rw [hm]
        simp [missedPrinciplesSpec, hm, hn]
      · rw [if_pos hn]
        have hmape : ((recommended.applicable_principles.map (fun m => m.principle)).filter
            (fun p => heuristicFlagged (pyLower historical.actual_decision) p)).map missedGap
            ≠ [] := by
          intro hh
          apply hm
          unfold missedPrinciplesSpec
          exact List.map_eq_nil_iff.mp hh
        rw [if_neg hmape]
        rw [if_neg (fun hc => hm hc.2), if_neg (fun hc => hm hc.2)]
        simp [missedPrinciplesSpec]
    · rw [if_neg hn]
      simp [missedPrinciplesSpec, hn]
